import Mathlib

set_option maxRecDepth 8000

/-!
Verification of the Notion-scraper Cloudflare worker.

The repository contains three variants of the same worker
(`src/src/index.ts`, `src/unnamed/part_000`, `src/unnamed/part_001`).
All share the routing/validation code; they differ in

* the host-marker check (`index.ts` and `part_000` accept a url that
  contains `notion.so` OR `notion.site`; `part_001`'s condition
  `!u.includes('notion.so') || !u.includes('notion.site')` rejects
  unless BOTH markers are present),
* the toggle-expansion loop (batch clicking with a cap of 20 in
  `index.ts` and `part_000`, one pass per iteration with a cap of 100 in
  `part_001`), and
* the in-page extraction callback (`index.ts`: top-level blocks, media
  skipping, no dedup; `part_000`: all blocks, direct text with nested
  blocks stripped, dedup by exact text; `part_001`: all blocks, raw
  `textContent`, no filtering).

We model the DOM that the extraction callbacks traverse as a tree of
element and text nodes (`Node`/`NodeList` below, a mutual inductive so
that all functions over it are structurally recursive and compute in the
kernel), translate each callback, and model the HTTP handler itself over
an oracle (`PipeSpec`) describing the outcome of every fallible
browser-automation step.
-/

/-! ## String helpers: JavaScript `String.prototype.includes` -/

/-- Does the character list `s` begin with the character list `p`? -/
def charsBeginWith : List Char → List Char → Bool
  | _, [] => true
  | [], _ :: _ => false
  | c :: cs, p :: ps => c == p && charsBeginWith cs ps

/-- Does the character list `s` contain `p` as a contiguous run? -/
def charsHasSub : List Char → List Char → Bool
  | [], p => p.isEmpty
  | c :: cs, p => charsBeginWith (c :: cs) p || charsHasSub cs p

/-- JavaScript `s.includes(pat)`: substring presence. -/
def strContains (s pat : String) : Bool :=
  charsHasSub s.toList pat.toList

/-- JavaScript `s.trim()`: strip leading and trailing whitespace. -/
def jsTrim (s : String) : String :=
  String.mk (((s.toList.dropWhile Char.isWhitespace).reverse.dropWhile
    Char.isWhitespace).reverse)

/-! ## The DOM model

`Node.elem tag attrs children` is a DOM element with its tag name, its
attribute list (JavaScript `getAttribute` reads the first binding) and
its child nodes; `Node.text s` is a DOM text node.  Text nodes are never
matched by CSS selectors; element predicates below therefore return
`false` on them. -/

mutual
inductive Node where
  | text (s : String)
  | elem (tag : String) (attrs : List (String × String)) (children : NodeList)
inductive NodeList where
  | nil
  | cons (hd : Node) (tl : NodeList)
end

/-- The child list of a node (`nil` for a text node). -/
def Node.children : Node → NodeList
  | .text _ => .nil
  | .elem _ _ cs => cs

/-- Convert a `NodeList` to an ordinary list. -/
def NodeList.toList : NodeList → List Node
  | .nil => []
  | .cons hd tl => hd :: tl.toList

/-- JavaScript `getAttribute`: the value of attribute `k`, if present. -/
def getAttr : Node → String → Option String
  | .text _, _ => none
  | .elem _ attrs _, k => (attrs.find? (fun kv => kv.fst == k)).map Prod.snd

/-- The tag name of an element (`""` for a text node). -/
def tagOf : Node → String
  | .text _ => ""
  | .elem t _ _ => t

/-- The value of the `class` attribute (`""` when absent). -/
def classOf (n : Node) : String :=
  (getAttr n "class").getD ""

/-- CSS `[data-block-id]`: the element carries a `data-block-id` attribute. -/
def hasBlockId (n : Node) : Bool :=
  match n with
  | .text _ => false
  | .elem _ _ _ => (getAttr n "data-block-id").isSome

/-- CSS `[data-content-editable-root="true"]`. -/
def isContentRoot (n : Node) : Bool :=
  getAttr n "data-content-editable-root" == some "true"

mutual
/-- JavaScript `textContent`: concatenation of all text descendants in
document order. -/
def textContent : Node → String
  | .text s => s
  | .elem _ _ cs => textContentL cs
def textContentL : NodeList → String
  | .nil => ""
  | .cons hd tl => textContent hd ++ textContentL tl
end

mutual
/-- Does `p` hold on `n` or any of its descendants? -/
def existsDOS (p : Node → Bool) : Node → Bool
  | .text s => p (.text s)
  | .elem t a cs => p (.elem t a cs) || existsDOSL p cs
def existsDOSL (p : Node → Bool) : NodeList → Bool
  | .nil => false
  | .cons hd tl => existsDOS p hd || existsDOSL p tl
end

/-- Does `p` hold on a proper descendant of `n`?  This is
`n.querySelector(sel) !== null` for a selector whose per-element test is
`p` (`querySelector` never matches the element it is called on). -/
def existsProperDesc (p : Node → Bool) (n : Node) : Bool :=
  existsDOSL p n.children

mutual
/-- Model of `clone.querySelectorAll(sel).forEach(el => el.remove())`:
remove every descendant (at any depth) satisfying `p`, keeping the root.
A removed element disappears together with its whole subtree, and
removal never recurses into removed subtrees, exactly as in the DOM. -/
def removeMatching (p : Node → Bool) : Node → Node
  | .text s => .text s
  | .elem t a cs => .elem t a (removeMatchingL p cs)
def removeMatchingL (p : Node → Bool) : NodeList → NodeList
  | .nil => .nil
  | .cons hd tl =>
      if p hd then removeMatchingL p tl
      else .cons (removeMatching p hd) (removeMatchingL p tl)
end

mutual
/-- All elements of the subtree rooted at `n` (including `n`) carrying a
`data-block-id` attribute, in document (pre)order. -/
def blocksIn : Node → List Node
  | .text _ => []
  | .elem t a cs =>
      (if hasBlockId (.elem t a cs) then [Node.elem t a cs] else []) ++ blocksInL cs
def blocksInL : NodeList → List Node
  | .nil => []
  | .cons hd tl => blocksIn hd ++ blocksInL tl
end

/-- `contentRoot.querySelectorAll('[data-block-id]')`: all proper
descendants of `root` carrying the block marker, in document order. -/
def allBlocksOf (root : Node) : List Node :=
  blocksInL root.children

mutual
/-- The outermost block elements of a subtree: a block is collected and
its own subtree is not descended into; non-block elements are traversed.
For every block `b` below the content root, `index.ts` keeps `b` exactly
when `b.parentElement.closest('[data-block-id]')` is not itself one of
the collected blocks, i.e. when no element strictly between `b` and the
content root carries `data-block-id` (a block ancestor at or above the
content root is not in `allBlocks`, so `allBlocks.includes(parent)` is
false and `b` is kept).  That filter is exactly this recursion. -/
def topBlocksIn : Node → List Node
  | .text _ => []
  | .elem t a cs =>
      if hasBlockId (.elem t a cs) then [Node.elem t a cs] else topBlocksInL cs
def topBlocksInL : NodeList → List Node
  | .nil => []
  | .cons hd tl => topBlocksIn hd ++ topBlocksInL tl
end

/-- The top-level blocks of the content root (`index.ts` lines 139-148). -/
def topLevelBlocksOf (root : Node) : List Node :=
  topBlocksInL root.children

mutual
/-- `document.querySelector(..)` for a per-element test `p`: the first
matching element in document order, the root included. -/
def findFirst (p : Node → Bool) : Node → Option Node
  | .text s => if p (.text s) then some (.text s) else none
  | .elem t a cs =>
      if p (.elem t a cs) then some (.elem t a cs) else findFirstL p cs
def findFirstL (p : Node → Bool) : NodeList → Option Node
  | .nil => none
  | .cons hd tl =>
      match findFirst p hd with
      | some m => some m
      | none => findFirstL p tl
end

/-- `document.querySelector('[data-content-editable-root="true"]')`. -/
def findContentRoot (d : Node) : Option Node :=
  findFirst isContentRoot d

/-! ## The extraction callbacks -/

/-- The per-element test of the skip selector in `index.ts` lines
156-163: `img`, `[class*="image"]`, `[class*="embed"]`,
`[class*="video"]`, `[class*="file"]`, `svg`.  Only these matchers
appear; in particular there is no `audio` matcher and `video` is
matched only through the class-substring heuristic, not by tag. -/
def isSkipMatch (n : Node) : Bool :=
  tagOf n == "img" ||
  strContains (classOf n) "image" ||
  strContains (classOf n) "embed" ||
  strContains (classOf n) "video" ||
  strContains (classOf n) "file" ||
  tagOf n == "svg"

/-- The per-element test of the removal selector
`'img, svg, video, audio, iframe'` (`index.ts` line 171,
`part_000` line 152). -/
def isRemovedTag (n : Node) : Bool :=
  tagOf n == "img" || tagOf n == "svg" || tagOf n == "video" ||
  tagOf n == "audio" || tagOf n == "iframe"

/-- Any media marker of either selector (used to state media-freeness). -/
def isMediaish (n : Node) : Bool :=
  isRemovedTag n || isSkipMatch n

/-- Skip test for a block (`index.ts` lines 156-163):
`blockElement.querySelector(..) !== null`, i.e. a proper descendant
matches the skip selector. -/
def hasMediaSkip (b : Node) : Bool :=
  existsProperDesc isSkipMatch b

/-- `clone.querySelectorAll('img, svg, video, audio, iframe').forEach(el => el.remove())`. -/
def removeMedia (n : Node) : Node :=
  removeMatching isRemovedTag n

/-- `clone.querySelectorAll('[data-block-id]').forEach(el => el.remove())`
(`part_000` line 149). -/
def removeNestedBlocks (n : Node) : Node :=
  removeMatching hasBlockId n

/-- What one top-level block contributes in `index.ts` lines 152-179:
`none` when the block is skipped or its cleaned trimmed text is empty,
otherwise the text that is pushed onto `contentParts`. -/
def emitMain (b : Node) : Option String :=
  if hasMediaSkip b then none
  else
    let t := jsTrim (textContent (removeMedia b))
    if t == "" then none else some t

/-- `contentParts` of the `index.ts` extractor. -/
def partsMain (root : Node) : List String :=
  (topLevelBlocksOf root).filterMap emitMain

/-- `getDirectText` of `part_000` lines 145-155: clone the block, remove
nested blocks, remove media elements, return the trimmed text. -/
def getDirectText (b : Node) : String :=
  jsTrim (textContent (removeMedia (removeNestedBlocks b)))

/-- The `forEach` over `allBlocks` in `part_000` lines 162-174, with the
`seenTexts` set threaded through: push a text only if non-empty and not
seen before. -/
def partsDedupAux : List Node → List String → List String
  | [], _ => []
  | b :: bs, seen =>
      let t := getDirectText b
      if t == "" then partsDedupAux bs seen
      else if seen.contains t then partsDedupAux bs seen
      else t :: partsDedupAux bs (t :: seen)

/-- `contentParts` of the `part_000` extractor. -/
def partsDedup (root : Node) : List String :=
  partsDedupAux (allBlocksOf root) []

/-- What one block contributes in `part_001` lines 137-142: the trimmed
raw `textContent`, if non-empty. -/
def emitNaive (b : Node) : Option String :=
  let t := jsTrim (textContent b)
  if t == "" then none else some t

/-- `contentParts` of the `part_001` extractor. -/
def partsNaive (root : Node) : List String :=
  (allBlocksOf root).filterMap emitNaive

/-! ## Title extraction

`document.querySelector('.notion-page-content .notion-header__title,
[data-content-editable-leaf="true"]')` returns the first element in
document order matching either selector of the comma list.  We thread a
flag recording whether a strict ancestor carries the class token
`notion-page-content` (the descendant combinator). -/

/-- CSS class matching: the `class` attribute, split on whitespace,
contains the token. -/
def charsFields : List Char → List Char → List String
  | [], cur => if cur.isEmpty then [] else [String.mk cur.reverse]
  | c :: cs, cur =>
      if c.isWhitespace then
        (if cur.isEmpty then [] else [String.mk cur.reverse]) ++ charsFields cs []
      else charsFields cs (c :: cur)

/-- Does the element's `class` attribute contain `tok` as a
whitespace-separated token? -/
def hasClassToken (n : Node) (tok : String) : Bool :=
  (charsFields (classOf n).toList []).contains tok

/-- Does `n` match the title selector list, given whether a strict
ancestor carries the `notion-page-content` class? -/
def isTitleMatch (inside : Bool) (n : Node) : Bool :=
  (inside && hasClassToken n "notion-header__title") ||
  getAttr n "data-content-editable-leaf" == some "true"

mutual
/-- First element in document order matching the title selector list. -/
def findTitleElem (inside : Bool) : Node → Option Node
  | .text _ => none
  | .elem t a cs =>
      if isTitleMatch inside (.elem t a cs) then some (.elem t a cs)
      else findTitleElemL (inside || hasClassToken (.elem t a cs) "notion-page-content") cs
def findTitleElemL (inside : Bool) : NodeList → Option Node
  | .nil => none
  | .cons hd tl =>
      match findTitleElem inside hd with
      | some m => some m
      | none => findTitleElemL inside tl
end

/-- Title computation shared by all three variants:
`titleElement?.textContent?.trim() || 'Untitled'`. -/
def computeTitle (d : Node) : String :=
  match findTitleElem false d with
  | some e =>
      let t := jsTrim (textContent e)
      if t == "" then "Untitled" else t
  | none => "Untitled"

/-- The whole `page.evaluate` callback of `index.ts` lines 126-185 on a
document `d`: the returned `{title, content}` pair. -/
def extractMainDoc (d : Node) : String × String :=
  let title := computeTitle d
  match findContentRoot d with
  | none => (title, "")
  | some root => (title, String.intercalate "\n\n" (partsMain root))

/-- The `page.evaluate` callback of `part_000` lines 132-180. -/
def extractDedupDoc (d : Node) : String × String :=
  let title := computeTitle d
  match findContentRoot d with
  | none => (title, "")
  | some root => (title, String.intercalate "\n\n" (partsDedup root))

/-- The `page.evaluate` callback of `part_001` lines 121-148. -/
def extractNaiveDoc (d : Node) : String × String :=
  let title := computeTitle d
  match findContentRoot d with
  | none => (title, "")
  | some root => (title, String.intercalate "\n\n" (partsNaive root))

/-! ## The HTTP handler

The handler itself (`fetch`) is modelled as a pure function of the
request's routing data and of a `PipeSpec` oracle giving the outcome of
every fallible browser-automation step together with the DOM the
extraction callback finally runs on.  Response bodies are modelled by
the shape of the serialized JSON payload. -/

/-- The payload shapes the worker serializes. -/
inductive Body where
  | empty
  | errJson (error : String)
  | errDetailsJson (error details : String)
  | resultJson (title content : String)
deriving DecidableEq

/-- An HTTP response: status, body payload, response headers in order. -/
structure Resp where
  status : Nat
  body : Body
  headers : List (String × String)
deriving DecidableEq

/-- The routing-relevant data of an incoming request. -/
structure Req where
  path : String
  method : String
  urlParam : Option String
deriving DecidableEq

/-- A value thrown by the pipeline: either a JavaScript `Error` carrying
its message, or any other thrown value. -/
inductive Thrown where
  | err (message : String)
  | nonError
deriving DecidableEq

/-- Browser-lifecycle events of one request, in the order they happen. -/
inductive Ev where
  | launched
  | closed
  | responded (status : Nat)
deriving DecidableEq

/-- `CORS_HEADERS` (lines 3-7 of each variant). -/
def corsHeaders : List (String × String) :=
  [("Access-Control-Allow-Origin", "*"),
   ("Access-Control-Allow-Methods", "GET, POST, OPTIONS"),
   ("Access-Control-Allow-Headers", "Content-Type, Authorization")]

/-- The header object `{'Content-Type': 'application/json', ...CORS_HEADERS}`. -/
def jsonHeaders : List (String × String) :=
  ("Content-Type", "application/json") :: corsHeaders

/-- The 404 response for any path other than `/scrape`. -/
def resp404 : Resp :=
  ⟨404, .errJson "Use /scrape endpoint with ?url=<notion-url>", jsonHeaders⟩

/-- The OPTIONS response: `new Response(null, { headers: CORS_HEADERS })`
(default status 200, empty body, only the CORS headers). -/
def respOptions : Resp :=
  ⟨200, .empty, corsHeaders⟩

/-- The 400 response for a missing `url` parameter. -/
def resp400missing : Resp :=
  ⟨400, .errJson "Missing \"url\" query parameter", jsonHeaders⟩

/-- The 400 response for a url failing the host-marker check. -/
def resp400invalid : Resp :=
  ⟨400, .errJson "Invalid Notion URL. Must be from notion.so or notion.site", jsonHeaders⟩

/-- The success response. -/
def resp200 (title content : String) : Resp :=
  ⟨200, .resultJson title content, jsonHeaders⟩

/-- `error instanceof Error ? error.message : 'Unknown error occurred'`. -/
def errorMessageOf : Thrown → String
  | .err m => m
  | .nonError => "Unknown error occurred"

/-- The response built by the catch block (`index.ts` lines 202-222). -/
def respCatch (e : Thrown) : Resp :=
  ⟨500, .errDetailsJson "Failed to scrape Notion page" (errorMessageOf e), jsonHeaders⟩

/-- Host-marker rejection of `index.ts` and `part_000` (line 52):
`!notionUrl.includes('notion.so') && !notionUrl.includes('notion.site')`. -/
def rejectHostMain (u : String) : Bool :=
  !strContains u "notion.so" && !strContains u "notion.site"

/-- Host-marker rejection of `part_001` (line 52):
`!notionUrl.includes('notion.so') || !notionUrl.includes('notion.site')`. -/
def rejectHostNaive (u : String) : Bool :=
  !strContains u "notion.so" || !strContains u "notion.site"

/-- Oracle for one run of the try block of `index.ts` lines 66-200:
whether each fallible browser step throws (and what it throws), and the
document state the extraction callback runs on.  Faults of the toggle
expansion phase are listed separately because the code catches them
locally (lines 118-120) and continues. -/
structure PipeSpec where
  launchFault : Option Thrown
  newPageFault : Option Thrown
  gotoFault : Option Thrown
  waitSelFault : Option Thrown
  expandFault : Option Thrown
  extractFault : Option Thrown
  dom : Node

/-- The first fault that propagates out of the try block once the
browser has been acquired.  `expandFault` is absent: the expansion phase
has its own catch that only logs. -/
def firstFault (ps : PipeSpec) : Option Thrown :=
  (ps.newPageFault.orElse fun _ => ps.gotoFault).orElse fun _ =>
    (ps.waitSelFault.orElse fun _ => ps.extractFault)

/-- Any fault reaching the catch block, the launch fault included. -/
def caughtFault (ps : PipeSpec) : Option Thrown :=
  ps.launchFault.orElse fun _ => firstFault ps

/-- The try/catch of `index.ts` lines 65-222 as a response plus the
browser-lifecycle event trace.  If `launch` throws, `browser` is still
undefined, so the catch block skips `close()`; after a successful
launch, `close()` runs either at line 187 (success) or at line 204
(catch) before the response is returned. -/
def runScrapeMain (ps : PipeSpec) : Resp × List Ev :=
  match ps.launchFault with
  | some e => (respCatch e, [.responded 500])
  | none =>
      match firstFault ps with
      | some e => (respCatch e, [.launched, .closed, .responded 500])
      | none =>
          let r := extractMainDoc ps.dom
          (resp200 r.fst r.snd, [.launched, .closed, .responded 200])

/-- The whole `fetch` handler of `index.ts`: routing and validation
(lines 17-63) followed by the scrape pipeline. -/
def handleMain (r : Req) (ps : PipeSpec) : Resp × List Ev :=
  if r.path != "/scrape" then (resp404, [])
  else if r.method == "OPTIONS" then (respOptions, [])
  else
    match r.urlParam with
    | none => (resp400missing, [])
    | some u =>
        if rejectHostMain u then (resp400invalid, [])
        else runScrapeMain ps

/-- The validation failures of the claim: wrong path, or (for a
non-OPTIONS request on the scrape path) a missing `url` parameter or a
url failing the host-marker check. -/
def failsValidation (r : Req) : Bool :=
  r.path != "/scrape" ||
  (r.method != "OPTIONS" &&
    (match r.urlParam with
     | none => true
     | some u => rejectHostMain u))

/-! ## The toggle-expansion loops

Each loop is modelled over an oracle giving, per iteration, the count
the in-page query returns (`clickedCount`, resp. the collapsed-element
count).  The loop counter `iteration` starts at 0 and the `while` guard
is `iteration < maxIterations`; we recurse on the remaining fuel
`maxIterations - iteration` and return the number of times the loop
body ran. -/

/-- The loop of `index.ts` lines 104-117: break when `clickedCount` is 0
or equals the previous count (initially `-1`). -/
def toggleGoMain (oracle : Nat → Nat) : Nat → Nat → Int → Nat
  | 0, _, _ => 0
  | fuel + 1, iter, last =>
      let clicked := oracle iter
      if clicked == 0 || ((clicked : Int) == last) then 1
      else 1 + toggleGoMain oracle fuel (iter + 1) (clicked : Int)

/-- Number of iterations the `index.ts` toggle loop executes. -/
def toggleIterMain (oracle : Nat → Nat) : Nat :=
  toggleGoMain oracle 20 0 (-1)

/-- The loop of `part_000` lines 111-123: break when the count repeats
(but not on iteration 0), or when it is 0 after more than 2 iterations. -/
def toggleGoDedup (oracle : Nat → Nat) : Nat → Nat → Int → Nat
  | 0, _, _ => 0
  | fuel + 1, iter, last =>
      let clicked := oracle iter
      if (decide (iter > 0) && ((clicked : Int) == last)) ||
         (clicked == 0 && decide (iter > 2)) then 1
      else 1 + toggleGoDedup oracle fuel (iter + 1) (clicked : Int)

/-- Number of iterations the `part_000` toggle loop executes. -/
def toggleIterDedup (oracle : Nat → Nat) : Nat :=
  toggleGoDedup oracle 20 0 (-1)

/-- The loop of `part_001` lines 106-112: break only when no collapsed
element is found. -/
def toggleGoNaive (oracle : Nat → Nat) : Nat → Nat → Nat
  | 0, _ => 0
  | fuel + 1, iter =>
      let before := oracle iter
      if before == 0 then 1
      else 1 + toggleGoNaive oracle fuel (iter + 1)

/-- Number of iterations the `part_001` toggle loop executes. -/
def toggleIterNaive (oracle : Nat → Nat) : Nat :=
  toggleGoNaive oracle 100 0

/-! ## Basic lemmas about the DOM functions -/

/-- A predicate false on a whole subtree is false at its root. -/
theorem p_false_of_existsDOS_false {p : Node → Bool} {n : Node}
    (h : existsDOS p n = false) : p n = false := by
  cases n with
  | text s => simpa [existsDOS] using h
  | elem t a cs =>
      simp only [existsDOS, Bool.or_eq_false_iff] at h
      exact h.1

/-- A predicate false on a whole subtree is false on the child list. -/
theorem existsDOSL_false_of_existsDOS_false {p : Node → Bool} {n : Node}
    (h : existsDOS p n = false) : existsDOSL p n.children = false := by
  cases n with
  | text s => rfl
  | elem t a cs =>
      simp only [existsDOS, Bool.or_eq_false_iff] at h
      exact h.2

mutual
theorem existsDOS_false_mono {p q : Node → Bool} (hpq : ∀ m, p m = true → q m = true) :
    ∀ n, existsDOS q n = false → existsDOS p n = false
  | .text s, h => by
      simp only [existsDOS] at h ⊢
      exact Bool.eq_false_iff.mpr fun hp => Bool.eq_false_iff.mp h (hpq _ hp)
  | .elem t a cs, h => by
      simp only [existsDOS, Bool.or_eq_false_iff] at h ⊢
      exact ⟨Bool.eq_false_iff.mpr fun hp => Bool.eq_false_iff.mp h.1 (hpq _ hp),
        existsDOSL_false_mono hpq cs h.2⟩
theorem existsDOSL_false_mono {p q : Node → Bool} (hpq : ∀ m, p m = true → q m = true) :
    ∀ l, existsDOSL q l = false → existsDOSL p l = false
  | .nil, _ => rfl
  | .cons hd tl, h => by
      simp only [existsDOSL, Bool.or_eq_false_iff] at h ⊢
      exact ⟨existsDOS_false_mono hpq hd h.1, existsDOSL_false_mono hpq tl h.2⟩
end

mutual
theorem removeMatching_id {p : Node → Bool} :
    ∀ n, existsDOSL p n.children = false → removeMatching p n = n
  | .text _, _ => rfl
  | .elem t a cs, h => by
      simp only [removeMatching]
      rw [removeMatchingL_id cs h]
theorem removeMatchingL_id {p : Node → Bool} :
    ∀ l, existsDOSL p l = false → removeMatchingL p l = l
  | .nil, _ => rfl
  | .cons hd tl, h => by
      simp only [existsDOSL, Bool.or_eq_false_iff] at h
      have hhd := p_false_of_existsDOS_false h.1
      simp only [removeMatchingL, hhd, Bool.false_eq_true, if_false]
      rw [removeMatching_id hd (existsDOSL_false_of_existsDOS_false h.1),
        removeMatchingL_id tl h.2]
end

mutual
theorem blocksIn_eq_nil :
    ∀ n, existsDOS hasBlockId n = false → blocksIn n = []
  | .text _, _ => rfl
  | .elem t a cs, h => by
      simp only [existsDOS, Bool.or_eq_false_iff] at h
      simp only [blocksIn, h.1, Bool.false_eq_true, if_false, List.nil_append]
      exact blocksInL_eq_nil cs h.2
theorem blocksInL_eq_nil :
    ∀ l, existsDOSL hasBlockId l = false → blocksInL l = []
  | .nil, _ => rfl
  | .cons hd tl, h => by
      simp only [existsDOSL, Bool.or_eq_false_iff] at h
      simp only [blocksInL]
      rw [blocksIn_eq_nil hd h.1, blocksInL_eq_nil tl h.2]
      rfl
end

/-- A block with no nested block below it is collected exactly once. -/
theorem blocksIn_singleton {b : Node} (hid : hasBlockId b = true)
    (hnest : existsDOSL hasBlockId b.children = false) : blocksIn b = [b] := by
  cases b with
  | text s => simp [hasBlockId] at hid
  | elem t a cs =>
      simp only [blocksIn, hid, if_true, List.singleton_append, List.cons.injEq, true_and]
      exact blocksInL_eq_nil cs hnest

/-- A block is its own outermost block. -/
theorem topBlocksIn_singleton {b : Node} (hid : hasBlockId b = true) :
    topBlocksIn b = [b] := by
  cases b with
  | text s => simp [hasBlockId] at hid
  | elem t a cs => simp only [topBlocksIn, hid, if_true]

/-! ## Well-behaved blocks

A block is `goodBlock` when it carries the block marker, contains no
nested block, contains no media marker of either selector, and has
non-empty trimmed text — the situation of the spec's "N sibling blocks
with distinct non-empty text, none containing media markers". -/

/-- The trimmed full text of a block. -/
def blockText (b : Node) : String :=
  jsTrim (textContent b)

/-- A sibling block as in the spec's extraction property. -/
def goodBlock (b : Node) : Bool :=
  hasBlockId b && !existsProperDesc hasBlockId b &&
  !existsProperDesc isMediaish b && !(blockText b == "")

/-- Does `p` hold on every node of the list? -/
def allNL (p : Node → Bool) : NodeList → Bool
  | .nil => true
  | .cons hd tl => p hd && allNL p tl

/-- A content root whose children are the given nodes. -/
def mkRoot (bs : NodeList) : Node :=
  .elem "div" [("data-content-editable-root", "true")] bs

theorem goodBlock_spec {b : Node} (h : goodBlock b = true) :
    hasBlockId b = true ∧ existsProperDesc hasBlockId b = false ∧
    existsProperDesc isMediaish b = false ∧ (blockText b == "") = false := by
  simp only [goodBlock, Bool.and_eq_true, Bool.not_eq_true'] at h
  exact ⟨h.1.1.1, h.1.1.2, h.1.2, h.2⟩

theorem isSkipMatch_le_isMediaish : ∀ m, isSkipMatch m = true → isMediaish m = true := by
  intro m hm
  simp [isMediaish, hm]

theorem isRemovedTag_le_isMediaish : ∀ m, isRemovedTag m = true → isMediaish m = true := by
  intro m hm
  simp [isMediaish, hm]

/-- A media-free block passes the skip check of `index.ts`. -/
theorem hasMediaSkip_eq_false {b : Node} (h : existsProperDesc isMediaish b = false) :
    hasMediaSkip b = false :=
  existsDOSL_false_mono isSkipMatch_le_isMediaish _ h

/-- Removing media elements from a media-free block changes nothing. -/
theorem removeMedia_id {b : Node} (h : existsProperDesc isMediaish b = false) :
    removeMedia b = b :=
  removeMatching_id b (existsDOSL_false_mono isRemovedTag_le_isMediaish _ h)

/-- A good block contributes its trimmed full text in `index.ts`. -/
theorem emitMain_good {b : Node} (h : goodBlock b = true) :
    emitMain b = some (blockText b) := by
  obtain ⟨h1, h2, h3, h4⟩ := goodBlock_spec h
  simp only [emitMain, hasMediaSkip_eq_false h3, removeMedia_id h3, Bool.false_eq_true,
    if_false]
  rw [show jsTrim (textContent b) = blockText b from rfl]
  simp only [← beq_iff_eq (a := blockText b) (b := ""), h4, Bool.false_eq_true, if_false]

/-- On a good block, `getDirectText` is the trimmed full text. -/
theorem getDirectText_good {b : Node} (h : goodBlock b = true) :
    getDirectText b = blockText b := by
  obtain ⟨h1, h2, h3, h4⟩ := goodBlock_spec h
  have hnest : removeNestedBlocks b = b := removeMatching_id b h2
  simp only [getDirectText, hnest, removeMedia_id h3]
  rfl

/-- A good block contributes its trimmed full text in `part_001`. -/
theorem emitNaive_good {b : Node} (h : goodBlock b = true) :
    emitNaive b = some (blockText b) := by
  obtain ⟨h1, h2, h3, h4⟩ := goodBlock_spec h
  simp only [emitNaive]
  rw [show jsTrim (textContent b) = blockText b from rfl]
  simp only [← beq_iff_eq (a := blockText b) (b := ""), h4, Bool.false_eq_true, if_false]

theorem allNL_toList {p : Node → Bool} :
    ∀ l : NodeList, allNL p l = true → ∀ b ∈ l.toList, p b = true
  | .nil, _, b, hb => by simp [NodeList.toList] at hb
  | .cons hd tl, h, b, hb => by
      simp only [allNL, Bool.and_eq_true] at h
      simp only [NodeList.toList, List.mem_cons] at hb
      rcases hb with rfl | hb
      · exact h.1
      · exact allNL_toList tl h.2 b hb

/-- With only good blocks below it, the top-level block collection is
the child list itself. -/
theorem topBlocksInL_eq_toList :
    ∀ l : NodeList, allNL goodBlock l = true → topBlocksInL l = l.toList
  | .nil, _ => rfl
  | .cons hd tl, h => by
      simp only [allNL, Bool.and_eq_true] at h
      simp only [topBlocksInL, NodeList.toList]
      rw [topBlocksIn_singleton (goodBlock_spec h.1).1, topBlocksInL_eq_toList tl h.2]
      rfl

/-- With only good blocks below it, `querySelectorAll('[data-block-id]')`
returns the child list itself. -/
theorem blocksInL_eq_toList :
    ∀ l : NodeList, allNL goodBlock l = true → blocksInL l = l.toList
  | .nil, _ => rfl
  | .cons hd tl, h => by
      simp only [allNL, Bool.and_eq_true] at h
      obtain ⟨h1, h2, _, _⟩ := goodBlock_spec h.1
      simp only [blocksInL, NodeList.toList]
      rw [blocksIn_singleton h1 h2, blocksInL_eq_toList tl h.2]
      rfl

/-- Good blocks all emit their text through `filterMap`. -/
theorem filterMap_good {f : Node → Option String}
    (hf : ∀ b, goodBlock b = true → f b = some (blockText b)) :
    ∀ l : List Node, (∀ b ∈ l, goodBlock b = true) →
      l.filterMap f = l.map blockText := by
  intro l
  induction l with
  | nil => intro _; rfl
  | cons hd tl ih =>
      intro h
      rw [List.filterMap_cons, hf hd (h hd (List.mem_cons_self hd tl)), List.map_cons,
        ih (fun b hb => h b (List.mem_cons_of_mem hd hb))]

/-- The dedup fold emits every text once when the blocks are good, their
texts pairwise distinct, and none was seen before. -/
theorem partsDedupAux_eq :
    ∀ (bs : List Node) (seen : List String),
      (∀ b ∈ bs, goodBlock b = true) →
      (bs.map blockText).Nodup →
      (∀ b ∈ bs, seen.contains (blockText b) = false) →
      partsDedupAux bs seen = bs.map blockText := by
  intro bs
  induction bs with
  | nil => intro seen _ _ _; rfl
  | cons b bs ih =>
      intro seen hgood hnodup hseen
      have hb : goodBlock b = true := hgood b (List.mem_cons_self b bs)
      have h4 := (goodBlock_spec hb).2.2.2
      simp only [List.map_cons, List.nodup_cons] at hnodup
      simp only [partsDedupAux, getDirectText_good hb, h4, Bool.false_eq_true, if_false,
        hseen b (List.mem_cons_self b bs)]
      rw [List.map_cons]
      congr 1
      refine ih (blockText b :: seen) (fun x hx => hgood x (List.mem_cons_of_mem b hx))
        hnodup.2 ?_
      intro x hx
      have hne : blockText x ≠ blockText b := by
        intro hcontr
        exact hnodup.1 (hcontr ▸ List.mem_map_of_mem blockText hx)
      simp only [List.contains_cons, Bool.or_eq_false_iff]
      exact ⟨beq_eq_false_iff_ne.mpr hne, hseen x (List.mem_cons_of_mem b hx)⟩

/-! ## Small helpers for the claim proofs -/

theorem strAppendEmpty (t : String) : t ++ "" = t := by
  cases t with
  | mk data => show String.mk (data ++ []) = String.mk data; rw [List.append_nil]

/-- A benign pipeline oracle: nothing throws, the document is a bare
text node. -/
def trivPS : PipeSpec := ⟨none, none, none, none, none, none, .text ""⟩

/-- A simple paragraph block: one text node under a block element. -/
def mkTextBlock (id t : String) : Node :=
  .elem "div" [("data-block-id", id)] (.cons (.text t) .nil)

theorem textContent_mkTextBlock (id t : String) :
    textContent (mkTextBlock id t) = t := by
  show t ++ "" = t
  exact strAppendEmpty t

theorem getDirectText_mkTextBlock (id t : String) :
    getDirectText (mkTextBlock id t) = jsTrim t := by
  show jsTrim (textContent (removeMedia (removeNestedBlocks (mkTextBlock id t)))) = jsTrim t
  rw [show removeMedia (removeNestedBlocks (mkTextBlock id t)) = mkTextBlock id t from rfl,
    textContent_mkTextBlock]

/-- The trimmed texts of the child blocks, in document order. -/
def textsOf (bs : NodeList) : List String :=
  bs.toList.map blockText

/-! ## Loop bounds -/

theorem toggleGoMain_le (oracle : Nat → Nat) :
    ∀ fuel iter last, toggleGoMain oracle fuel iter last ≤ fuel
  | 0, _, _ => Nat.le_refl 0
  | fuel + 1, iter, last => by
      simp only [toggleGoMain]
      split
      · exact Nat.succ_le_succ (Nat.zero_le fuel)
      · have := toggleGoMain_le oracle fuel (iter + 1) ((oracle iter : Int))
        omega

theorem toggleGoDedup_le (oracle : Nat → Nat) :
    ∀ fuel iter last, toggleGoDedup oracle fuel iter last ≤ fuel
  | 0, _, _ => Nat.le_refl 0
  | fuel + 1, iter, last => by
      simp only [toggleGoDedup]
      split
      · exact Nat.succ_le_succ (Nat.zero_le fuel)
      · have := toggleGoDedup_le oracle fuel (iter + 1) ((oracle iter : Int))
        omega

theorem toggleGoNaive_le (oracle : Nat → Nat) :
    ∀ fuel iter, toggleGoNaive oracle fuel iter ≤ fuel
  | 0, _ => Nat.le_refl 0
  | fuel + 1, iter => by
      simp only [toggleGoNaive]
      split
      · exact Nat.succ_le_succ (Nat.zero_le fuel)
      · have := toggleGoNaive_le oracle fuel (iter + 1)
        omega

/-! ## The claims -/

/-- C1: the intended host-validation policy is "contains `notion.so` OR
contains `notion.site`", and `index.ts`/`part_000` implement it; but the
`part_001` variant (`!u.includes('notion.so') || !u.includes('notion.site')`)
rejects any url that does not contain BOTH markers, so a perfectly valid
`notion.so` url that lacks the `notion.site` substring is rejected with
the 400 invalid-URL error, contradicting the claim (and the variant's
own error message "Must be from notion.so or notion.site"). -/
theorem scrape_c1_host_check_bug :
    strContains "https://myteam.notion.so/Page-abc123" "notion.so" = true ∧
    rejectHostMain "https://myteam.notion.so/Page-abc123" = false ∧
    rejectHostNaive "https://myteam.notion.so/Page-abc123" = true := by
  decide

/-- C2: once the browser has been acquired (`launch` returned), every
outcome of the pipeline — successful extraction or any propagating fault
of `newPage`, navigation, the content wait, or extraction, with
expansion faults caught locally — closes the browser before the handler
responds: the event trace is always `launched, closed, responded s`. -/
theorem scrape_c2_browser_closed (ps : PipeSpec) (h : ps.launchFault = none) :
    ∃ s, (runScrapeMain ps).2 = [Ev.launched, Ev.closed, Ev.responded s] := by
  cases h2 : firstFault ps with
  | none => exact ⟨200, by simp only [runScrapeMain, h, h2]⟩
  | some e => exact ⟨500, by simp only [runScrapeMain, h, h2]⟩

theorem scrape_c2_browser_closed_witness :
    trivPS.launchFault = none ∧
    ∃ s, (runScrapeMain trivPS).2 = [Ev.launched, Ev.closed, Ev.responded s] :=
  ⟨rfl, scrape_c2_browser_closed trivPS rfl⟩

/-- C3 counterexample: an OPTIONS request to a path other than `/scrape`
hits the 404 branch first (the path check precedes the method check in
every variant), so its response has status 404 and a non-empty JSON
body, refuting "for every HTTP request with method OPTIONS, regardless
of its path, the response has a 2xx status and an empty body". -/
theorem scrape_c3_counterexample :
    (handleMain ⟨"/status", "OPTIONS", none⟩ trivPS).1.status = 404 ∧
    (handleMain ⟨"/status", "OPTIONS", none⟩ trivPS).1.body ≠ Body.empty := by
  decide

/-- C3 amended: an OPTIONS request to the `/scrape` path gets status 200
with an empty body and exactly the CORS header set; OPTIONS requests to
any other path get the 404 response instead. -/
theorem scrape_c3_options (r : Req) (ps : PipeSpec) (hp : r.path = "/scrape")
    (hm : r.method = "OPTIONS") :
    (handleMain r ps).1.status = 200 ∧ (handleMain r ps).1.body = Body.empty ∧
    (handleMain r ps).1.headers = corsHeaders := by
  simp only [handleMain, hp, hm, bne_self_eq_false, Bool.false_eq_true, if_false,
    beq_self_eq_true, if_true]
  exact ⟨rfl, rfl, rfl⟩

theorem scrape_c3_options_witness :
    (⟨"/scrape", "OPTIONS", none⟩ : Req).path = "/scrape" ∧
    (⟨"/scrape", "OPTIONS", none⟩ : Req).method = "OPTIONS" ∧
    ((handleMain ⟨"/scrape", "OPTIONS", none⟩ trivPS).1.status = 200 ∧
      (handleMain ⟨"/scrape", "OPTIONS", none⟩ trivPS).1.body = Body.empty ∧
      (handleMain ⟨"/scrape", "OPTIONS", none⟩ trivPS).1.headers = corsHeaders) :=
  ⟨rfl, rfl, scrape_c3_options ⟨"/scrape", "OPTIONS", none⟩ trivPS rfl rfl⟩

/-- C4: for a content root whose children are sibling blocks with
pairwise-distinct non-empty trimmed texts and no media markers (and no
nested blocks), all three extraction callbacks return as `content` the
block texts joined by a double newline, in document order. -/
theorem scrape_c4_content_join (bs : NodeList)
    (hgood : allNL goodBlock bs = true)
    (hnodup : (textsOf bs).Nodup) :
    (extractMainDoc (mkRoot bs)).2 = String.intercalate "\n\n" (textsOf bs) ∧
    (extractDedupDoc (mkRoot bs)).2 = String.intercalate "\n\n" (textsOf bs) ∧
    (extractNaiveDoc (mkRoot bs)).2 = String.intercalate "\n\n" (textsOf bs) := by
  have hroot : findContentRoot (mkRoot bs) = some (mkRoot bs) := rfl
  have hall := allNL_toList bs hgood
  have hmain : partsMain (mkRoot bs) = textsOf bs := by
    unfold partsMain topLevelBlocksOf
    rw [show (mkRoot bs).children = bs from rfl, topBlocksInL_eq_toList bs hgood]
    exact filterMap_good (fun b hb => emitMain_good hb) _ hall
  have hded : partsDedup (mkRoot bs) = textsOf bs := by
    unfold partsDedup allBlocksOf
    rw [show (mkRoot bs).children = bs from rfl, blocksInL_eq_toList bs hgood]
    exact partsDedupAux_eq _ [] hall hnodup (fun b _ => rfl)
  have hnai : partsNaive (mkRoot bs) = textsOf bs := by
    unfold partsNaive allBlocksOf
    rw [show (mkRoot bs).children = bs from rfl, blocksInL_eq_toList bs hgood]
    exact filterMap_good (fun b hb => emitNaive_good hb) _ hall
  refine ⟨?_, ?_, ?_⟩
  · rw [show (extractMainDoc (mkRoot bs)).2 =
      String.intercalate "\n\n" (partsMain (mkRoot bs)) from rfl, hmain]
  · rw [show (extractDedupDoc (mkRoot bs)).2 =
      String.intercalate "\n\n" (partsDedup (mkRoot bs)) from rfl, hded]
  · rw [show (extractNaiveDoc (mkRoot bs)).2 =
      String.intercalate "\n\n" (partsNaive (mkRoot bs)) from rfl, hnai]

/-- Two sibling paragraph blocks with distinct texts. -/
def bsW : NodeList :=
  .cons (mkTextBlock "a" " hello ") (.cons (mkTextBlock "b" "world") .nil)

theorem scrape_c4_content_join_witness :
    allNL goodBlock bsW = true ∧ (textsOf bsW).Nodup ∧
    ((extractMainDoc (mkRoot bsW)).2 = String.intercalate "\n\n" (textsOf bsW) ∧
      (extractDedupDoc (mkRoot bsW)).2 = String.intercalate "\n\n" (textsOf bsW) ∧
      (extractNaiveDoc (mkRoot bsW)).2 = String.intercalate "\n\n" (textsOf bsW)) :=
  ⟨by decide, by decide, scrape_c4_content_join bsW (by decide) (by decide)⟩

/-- C5: every request failing validation — wrong path, or a non-OPTIONS
scrape request with a missing `url` parameter or a url failing the
host-marker check — is answered 404 or 400 with an empty
browser-lifecycle trace: the browser is never launched. -/
theorem scrape_c5_no_launch (r : Req) (ps : PipeSpec) (h : failsValidation r = true) :
    (handleMain r ps).2 = [] ∧
    ((handleMain r ps).1.status = 404 ∨ (handleMain r ps).1.status = 400) := by
  unfold failsValidation at h
  unfold handleMain
  split
  · exact ⟨rfl, Or.inl rfl⟩
  · rename_i hpath
    have hp : r.path = "/scrape" := by
      by_contra hc
      exact hpath (bne_iff_ne.mpr hc)
    rw [hp] at h
    simp only [bne_self_eq_false, Bool.false_or, Bool.and_eq_true] at h
    obtain ⟨hm, hrest⟩ := h
    rw [beq_eq_false_iff_ne.mpr (bne_iff_ne.mp hm)]
    simp only [Bool.false_eq_true, if_false]
    split
    · exact ⟨rfl, Or.inr rfl⟩
    · rename_i u hu
      rw [hu] at hrest
      rw [if_pos (show rejectHostMain u = true from hrest)]
      exact ⟨rfl, Or.inr rfl⟩

theorem scrape_c5_no_launch_witness :
    failsValidation ⟨"/scrape", "GET", some "https://example.com/page"⟩ = true ∧
    ((handleMain ⟨"/scrape", "GET", some "https://example.com/page"⟩ trivPS).2 = [] ∧
      ((handleMain ⟨"/scrape", "GET", some "https://example.com/page"⟩ trivPS).1.status = 404 ∨
        (handleMain ⟨"/scrape", "GET", some "https://example.com/page"⟩ trivPS).1.status = 400)) :=
  ⟨by decide, scrape_c5_no_launch ⟨"/scrape", "GET", some "https://example.com/page"⟩ trivPS
    (by decide)⟩

/-- C6: whatever counts the in-page queries report — including a page on
which collapsed toggles remain present on every query — each variant's
toggle-expansion loop runs at most its configured iteration cap
(20 for `index.ts`, 20 for `part_000`, 100 for `part_001`). -/
theorem scrape_c6_loop_capped (o1 o2 o3 : Nat → Nat) :
    toggleIterMain o1 ≤ 20 ∧ toggleIterDedup o2 ≤ 20 ∧ toggleIterNaive o3 ≤ 100 :=
  ⟨toggleGoMain_le o1 20 0 (-1), toggleGoDedup_le o2 20 0 (-1), toggleGoNaive_le o3 100 0⟩

/-- C7: when no element matches the content-root marker, the extraction
callback returns the computed title with empty content and the request
still succeeds with status 200 (no error is raised). -/
theorem scrape_c7_no_content_root (r : Req) (u : String) (ps : PipeSpec)
    (hpath : r.path = "/scrape") (hmeth : r.method ≠ "OPTIONS")
    (hurl : r.urlParam = some u) (hhost : rejectHostMain u = false)
    (hlaunch : ps.launchFault = none) (hfault : firstFault ps = none)
    (hroot : findContentRoot ps.dom = none) :
    (handleMain r ps).1 = resp200 (computeTitle ps.dom) "" := by
  unfold handleMain
  rw [hpath, hurl]
  simp only [bne_self_eq_false, Bool.false_eq_true, if_false,
    beq_eq_false_iff_ne.mpr hmeth, hhost]
  show (runScrapeMain ps).1 = _
  simp only [runScrapeMain, hlaunch, hfault]
  unfold extractMainDoc
  rw [hroot]

theorem scrape_c7_no_content_root_witness :
    (⟨"/scrape", "GET", some "https://notion.so/x"⟩ : Req).path = "/scrape" ∧
    (⟨"/scrape", "GET", some "https://notion.so/x"⟩ : Req).method ≠ "OPTIONS" ∧
    rejectHostMain "https://notion.so/x" = false ∧
    findContentRoot trivPS.dom = none ∧
    (handleMain ⟨"/scrape", "GET", some "https://notion.so/x"⟩ trivPS).1 =
      resp200 (computeTitle trivPS.dom) "" :=
  ⟨rfl, by decide, by decide, rfl,
    scrape_c7_no_content_root ⟨"/scrape", "GET", some "https://notion.so/x"⟩
      "https://notion.so/x" trivPS rfl (by decide) rfl (by decide) rfl rfl rfl⟩

/-- A block whose only media element is an `audio` tag: no skip-selector
matcher fires on it (no `audio` tag matcher exists, and the class
heuristics see no class attribute). -/
def audioBlock (t : String) : Node :=
  .elem "div" [("data-block-id", "c")]
    (.cons (.text t) (.cons (.elem "audio" [] .nil) .nil))

/-- A block containing both text and an image. -/
def imgBlock : Node :=
  .elem "div" [("data-block-id", "w")]
    (.cons (.text "pic") (.cons (.elem "img" [] .nil) .nil))

/-- C8 counterexample: under `index.ts`, a block containing an `audio`
element (a media element: it is in the removal list) is NOT skipped —
its text still contributes an entry — because the skip selector matches
neither an `audio` tag nor any class of this block; and under the
`part_000` variant even an image-carrying block contributes its text,
since that variant strips media inside `getDirectText` instead of
skipping blocks.  Both refute "the extractor skips the block entirely:
none of that block's text contributes any entry". -/
theorem scrape_c8_counterexample :
    partsMain (mkRoot (.cons (audioBlock "hello") .nil)) = ["hello"] ∧
    partsDedup (mkRoot (.cons imgBlock .nil)) = ["pic"] := by
  decide

/-- C8 amended: under `index.ts`, a top-level block on which the skip
selector fires — a descendant `img` or `svg` element, or a descendant
whose class attribute contains `image`, `embed`, `video` or `file` — is
skipped entirely and contributes nothing; but a block whose only media
is matched by tag alone (`video`, `audio`, `iframe` in the removal
list), such as an `audio` element, is not skipped: the media element is
removed from the clone and the block's remaining text still
contributes. -/
theorem scrape_c8_skip_scope (b : Node) (hid : hasBlockId b = true)
    (hskip : hasMediaSkip b = true) (t : String) (ht : jsTrim t ≠ "") :
    partsMain (mkRoot (.cons b .nil)) = [] ∧
    partsMain (mkRoot (.cons (audioBlock t) .nil)) = [jsTrim t] := by
  constructor
  · have htop : topLevelBlocksOf (mkRoot (.cons b .nil)) = [b] := by
      show topBlocksInL (.cons b .nil) = [b]
      simp only [topBlocksInL, topBlocksIn_singleton hid]
      rfl
    have hemit : emitMain b = none := by
      simp only [emitMain, hskip, if_true]
    unfold partsMain
    rw [htop]
    simp only [List.filterMap_cons, hemit, List.filterMap_nil]
  · have htop : topLevelBlocksOf (mkRoot (.cons (audioBlock t) .nil)) = [audioBlock t] := rfl
    have hskip2 : hasMediaSkip (audioBlock t) = false := rfl
    have htext : textContent (removeMedia (audioBlock t)) = t := by
      rw [show removeMedia (audioBlock t) =
        Node.elem "div" [("data-block-id", "c")] (.cons (.text t) .nil) from rfl]
      show t ++ "" = t
      exact strAppendEmpty t
    have hemit : emitMain (audioBlock t) = some (jsTrim t) := by
      simp only [emitMain, hskip2, Bool.false_eq_true, if_false, htext,
        beq_eq_false_iff_ne.mpr ht]
    unfold partsMain
    rw [htop]
    simp only [List.filterMap_cons, hemit, List.filterMap_nil]

theorem scrape_c8_skip_scope_witness :
    hasBlockId imgBlock = true ∧ hasMediaSkip imgBlock = true ∧
    jsTrim "hello" ≠ "" ∧
    (partsMain (mkRoot (.cons imgBlock .nil)) = [] ∧
      partsMain (mkRoot (.cons (audioBlock "hello") .nil)) = [jsTrim "hello"]) :=
  ⟨by decide, by decide, by decide,
    scrape_c8_skip_scope imgBlock (by decide) (by decide) "hello" (by decide)⟩

/-- A content root holding two sibling blocks with identical text. -/
def dupPage (t : String) : Node :=
  mkRoot (.cons (mkTextBlock "a" t) (.cons (mkTextBlock "b" t) .nil))

/-- C9: two distinct sibling blocks whose trimmed texts are
byte-identical contribute exactly one entry under the deduplicating
`part_000` extractor and two entries under the non-deduplicating
`part_001` extractor. -/
theorem scrape_c9_dedup_pair (t : String) (ht : jsTrim t ≠ "") :
    partsDedup (dupPage t) = [jsTrim t] ∧
    partsNaive (dupPage t) = [jsTrim t, jsTrim t] := by
  have hne : (jsTrim t == "") = false := beq_eq_false_iff_ne.mpr ht
  have hblocks : allBlocksOf (dupPage t) = [mkTextBlock "a" t, mkTextBlock "b" t] := rfl
  constructor
  · show partsDedupAux (allBlocksOf (dupPage t)) [] = [jsTrim t]
    rw [hblocks]
    simp [partsDedupAux, getDirectText_mkTextBlock, hne]
  · show (allBlocksOf (dupPage t)).filterMap emitNaive = _
    rw [hblocks]
    have hemit : ∀ id, emitNaive (mkTextBlock id t) = some (jsTrim t) := by
      intro id
      simp only [emitNaive, textContent_mkTextBlock, hne, Bool.false_eq_true, if_false]
    simp only [List.filterMap_cons, hemit, List.filterMap_nil]

theorem scrape_c9_dedup_pair_witness :
    jsTrim "dup" ≠ "" ∧
    (partsDedup (dupPage "dup") = [jsTrim "dup"] ∧
      partsNaive (dupPage "dup") = [jsTrim "dup", jsTrim "dup"]) :=
  ⟨by decide, scrape_c9_dedup_pair "dup" (by decide)⟩

/-- A pipeline whose extraction step throws an `Error` with an empty
message. -/
def psEmptyErr : PipeSpec := ⟨none, none, none, none, none, some (.err ""), .text ""⟩

/-- Does a response body carry a non-empty `details` field? -/
def detailsNonEmpty (r : Resp) : Bool :=
  match r.body with
  | .errDetailsJson _ d => !(d == "")
  | _ => false

/-- C10 counterexample: a JavaScript `Error` may carry an empty message
(`new Error()` does), and the catch block copies the message verbatim
into `details`; at such a fault the 500 body's `details` field is the
empty string, refuting "details a non-empty string". -/
theorem scrape_c10_counterexample :
    (runScrapeMain psEmptyErr).1.status = 500 ∧
    (runScrapeMain psEmptyErr).1.body =
      Body.errDetailsJson "Failed to scrape Notion page" "" ∧
    detailsNonEmpty (runScrapeMain psEmptyErr).1 = false := by
  decide

/-- Is the catch-block message of this thrown value non-empty? -/
def thrownMsgNonEmpty : Thrown → Bool
  | .err m => !(m == "")
  | .nonError => true

/-- C10 amended: every fault caught by the top-level handler produces a
500 response whose body carries `error` equal to the fixed string
"Failed to scrape Notion page" and `details` equal to the fault's
message when the thrown value is an `Error` (possibly empty) and to the
literal "Unknown error occurred" otherwise; `details` is non-empty
whenever the thrown value is not an `Error` with an empty message. -/
theorem scrape_c10_error_body (ps : PipeSpec) (e : Thrown)
    (h : caughtFault ps = some e) :
    (runScrapeMain ps).1.status = 500 ∧
    (runScrapeMain ps).1.body =
      Body.errDetailsJson "Failed to scrape Notion page" (errorMessageOf e) ∧
    (thrownMsgNonEmpty e = true → errorMessageOf e ≠ "") := by
  have hresp : (runScrapeMain ps).1 = respCatch e := by
    unfold caughtFault at h
    cases hl : ps.launchFault with
    | some e' =>
        rw [hl] at h
        have he : e' = e := Option.some.inj (show some e' = some e from h)
        simp only [runScrapeMain, hl, he]
    | none =>
        rw [hl] at h
        have hf : firstFault ps = some e := h
        simp only [runScrapeMain, hl, hf]
  rw [hresp]
  refine ⟨rfl, rfl, ?_⟩
  intro hne
  cases e with
  | err m =>
      simp only [thrownMsgNonEmpty, Bool.not_eq_true'] at hne
      exact beq_eq_false_iff_ne.mp hne
  | nonError => decide

/-- A pipeline whose extraction step throws `new Error('boom')`. -/
def psBoom : PipeSpec := ⟨none, none, none, none, none, some (.err "boom"), .text ""⟩

theorem scrape_c10_error_body_witness :
    caughtFault psBoom = some (.err "boom") ∧
    ((runScrapeMain psBoom).1.status = 500 ∧
      (runScrapeMain psBoom).1.body =
        Body.errDetailsJson "Failed to scrape Notion page" (errorMessageOf (.err "boom")) ∧
      errorMessageOf (.err "boom") ≠ "") :=
  ⟨rfl, by
    have h := scrape_c10_error_body psBoom (.err "boom") rfl
    exact ⟨h.1, h.2.1, h.2.2 (by decide)⟩⟩
